import Mathlib

/-!
Verification of the two yt-dlp extractor modules
(yt_dlp/extractor/cbn.py and yt_dlp/extractor/jiosaavn.py)
against their natural-language specification.

The Python sources are shallowly embedded: each extractor method becomes a
Lean function over typed models of the JSON payloads it reads.  Framework
helpers that live outside the two source files (HTTP download, traversal
utilities such as url_or_none / int_or_none / clean_html, ISO-639 tables)
are modelled as explicit function parameters or as fields of the Utils
structure below, so every theorem is stated relative to an arbitrary
behaviour of those externals unless the spec pins them down.
-/

/-! ## Python string primitives

Models of the Python str operations used by the sources, written as
structural recursions over character lists so that concrete instances
reduce inside the kernel. -/

/-- starts_with sep s: does the character list s begin with sep? -/
def starts_with : List Char → List Char → Bool
  | [], _ => true
  | _ :: _, [] => false
  | p :: ps, c :: cs => c = p && starts_with ps cs

/-- Helper for py_split: cur is the current piece (reversed), fuel bounds the
recursion (any fuel above the length of the remaining input is enough). -/
def py_split_aux (sep : List Char) : Nat → List Char → List Char → List (List Char)
  | 0, cur, _ => [cur.reverse]
  | fuel + 1, cur, s =>
    if starts_with sep s then
      cur.reverse :: py_split_aux sep fuel [] (s.drop sep.length)
    else
      match s with
      | [] => [cur.reverse]
      | c :: cs => py_split_aux sep fuel (c :: cur) cs

/-- Model of Python str.split(sep) for a non-empty separator: splits at each
leftmost occurrence of sep. -/
def py_split (s sep : String) : List String :=
  (py_split_aux sep.toList (s.toList.length + 1) [] s.toList).map (fun l => String.mk l)

/-- Model of Python int(s) for strings of decimal digits: some value on an
all-digit non-empty string, none (an exception in Python) otherwise. -/
def py_int (s : String) : Option Int :=
  let cs := s.toList
  if !cs.isEmpty && cs.all Char.isDigit then
    some ((cs.foldl (fun acc c => acc * 10 + (c.toNat - '0'.toNat)) 0 : Nat) : Int)
  else none

/-- An enumeration of a Python set built from the list xs, keeping first
occurrences.  Used as one concrete possible iteration order of
list(set(xs)); CPython's actual order depends on the per-process string
hash seed. -/
def set_list_first (seen : List String) : List String → List String
  | [] => []
  | a :: l => if a ∈ seen then set_list_first seen l else a :: set_list_first (a :: seen) l

/-- Another concrete possible enumeration of the same set: the reverse of
set_list_first. -/
def set_list_rev (xs : List String) : List String :=
  (set_list_first [] xs).reverse

/-- A function List String → List String is a valid model of the Python
conversion list(set(xs)) when its output never repeats an element and has
exactly the members of xs.  Every CPython set iteration order satisfies
this, whatever the hash seed. -/
def valid_set_order (f : List String → List String) : Prop :=
  ∀ xs, (f xs).Nodup ∧ ∀ a, a ∈ f xs ↔ a ∈ xs

/-! ## cbn.py: CBNBaseIE, CBNIE, CBNFamilyIE -/

namespace CBN

/-- The info-dict returned by CBNBaseIE._extract_brightcove: keys _type,
url and ie_key (field type_of models the '_type' key). -/
structure UrlTransparentResult where
  type_of : String
  url : String
  ie_key : String
deriving DecidableEq

/-- CBNBaseIE._ACCOUNT_ID. -/
def ACCOUNT_ID : String := "734546207001"

/-- CBNBaseIE._PLAYER_ID. -/
def PLAYER_ID : String := "TADSYViJy"

/-- CBNBaseIE._EMBED. -/
def EMBED : String := "default"

/-- CBNBaseIE._extract_brightcove(video_id): builds the url_transparent
result pointing at the Brightcove player (cbn.py lines 16-21). -/
def extract_brightcove (video_id : String) : UrlTransparentResult :=
  { type_of := "url_transparent",
    url := "https://players.brightcove.net/" ++ ACCOUNT_ID ++ "/" ++ PLAYER_ID ++ "_"
      ++ EMBED ++ "/index.html?videoId=" ++ video_id,
    ie_key := "BrightcoveNew" }

/-- CBNFamilyIE._real_extract (cbn.py lines 129-131): display_id is the id
group captured by _VALID_URL from the page URL; it is passed directly to
_extract_brightcove. -/
def CBNFamily_real_extract (display_id : String) : UrlTransparentResult :=
  extract_brightcove display_id

/-- CBNIE._real_extract scrape (cbn.py lines 89-91): the video id is the
data-video-id attribute of the matched element.  find_el models the
framework helper find_element(tag='video-js', attr='id',
value='player-BACKSLASHd+', html=True, regex=True) (not part of the two
source files: it returns the HTML of the first video-js element whose id
attribute matches the pattern, if any); extract_attrs models the framework
helper extract_attributes (attribute/value pairs of an HTML fragment). -/
def CBN_video_id (find_el : String → Option String)
    (extract_attrs : String → List (String × String)) (webpage : String) : Option String :=
  (find_el webpage).bind fun el => (extract_attrs el).lookup "data-video-id"

/-- CBNIE._real_extract (cbn.py lines 86-92).  When the scrape finds no
data-video-id, Python's f-string renders the None video id as the text
"None"; the embedding makes that case explicit. -/
def CBN_real_extract (find_el : String → Option String)
    (extract_attrs : String → List (String × String)) (webpage : String) : UrlTransparentResult :=
  match CBN_video_id find_el extract_attrs webpage with
  | some video_id => extract_brightcove video_id
  | none => extract_brightcove "None"

end CBN

/-! ## jiosaavn.py: payload models and framework utilities -/

namespace JioSaavn

/-- Framework utilities used by jiosaavn.py that live outside the two
source files.  Modelled from the spec: the spec describes them only as
"HTML/JSON parsing utilities" doing "string trims, date parsing,
language-code normalization", so each is kept as an arbitrary pure
function of the stated shape:
* clean_html: HTML-to-text cleanup of a string;
* url_or_none: returns the URL when the string is a valid URL, none
  otherwise (never returns the empty string);
* int_or_none: integer coercion yielding none on failure;
* unified_timestamp / unified_strdate: date parsing;
* url_basename: last path component of a URL;
* casefold: Python str.casefold;
* short2long: the ISO639Utils short-to-long table lookup, yielding the
  ISO 639 long code when the table knows the input. -/
structure Utils where
  clean_html : String → String
  url_or_none : String → Option String
  int_or_none : String → Option Int
  unified_timestamp : String → Option Int
  unified_strdate : String → Option String
  url_basename : String → String
  casefold : String → String
  short2long : String → Option String
  thumb_resize : String → String

/-- The more_info sub-object of a song payload, restricted to the fields
jiosaavn.py reads.  Each field is optional, matching an absent JSON key;
artistMap_primary_artists holds the name field of each entry of
more_info.artistMap.primary_artists (none for an entry without a name). -/
structure MoreInfo where
  description : Option String := none
  duration : Option String := none
  release_time : Option String := none
  label : Option String := none
  label_id : Option String := none
  label_url : Option String := none
  show_title : Option String := none
  show_id : Option String := none
  season_title : Option String := none
  season_no : Option String := none
  season_id : Option String := none
  episode_number : Option String := none
  encrypted_media_url : Option String := none
  artistMap_primary_artists : List (Option String) := []

/-- A song payload (the song_data argument of _extract_song), restricted
to the fields jiosaavn.py reads.  type_of models the 'type' key. -/
structure SongData where
  id : Option String := none
  song : Option String := none
  title : Option String := none
  album : Option String := none
  image : Option String := none
  duration : Option String := none
  year : Option String := none
  release_date : Option String := none
  play_count : Option String := none
  label : Option String := none
  label_id : Option String := none
  label_url : Option String := none
  primary_artists : Option String := none
  featured_artists : Option String := none
  perma_url : Option String := none
  language : Option String := none
  type_of : Option String := none
  starring : Option String := none
  encrypted_media_url : Option String := none
  more_info : MoreInfo := {}

/-- The metadata record built by _extract_song.  A field value of none
models the key being absent from the returned dict (traverse_obj drops
keys whose traversal produced None). -/
structure SongInfo where
  id : Option String := none
  title : Option String := none
  album : Option String := none
  thumbnail : Option String := none
  description : Option String := none
  duration : Option Int := none
  release_year : Option Int := none
  timestamp : Option Int := none
  upload_date : Option String := none
  view_count : Option Int := none
  channel : Option String := none
  channel_id : Option String := none
  channel_url : Option String := none
  series : Option String := none
  series_id : Option String := none
  season : Option String := none
  season_number : Option Int := none
  season_id : Option String := none
  episode_number : Option Int := none
  artists : Option (List String) := none
  webpage_url : Option String := none
  language : Option String := none
  media_type : Option String := none
  cast : Option (List String) := none
  display_id : Option String := none
  old_archive_ids : Option (List String) := none

/-- JioSaavnBaseIE._BASE_URL. -/
def BASE_URL : String := "https://www.jiosaavn.com"

/-- The channel_url lambda of _extract_song (jiosaavn.py line 76):
prepends _BASE_URL when the label_url value is truthy, None otherwise. -/
def channel_url_of (x : String) : Option String :=
  if x = "" then none else some (BASE_URL ++ x)

/-- The artists / cast lambda of _extract_song (lines 83 and 87):
x.split(', ') when x is truthy, None otherwise. -/
def split_names (x : String) : Option (List String) :=
  if x = "" then none else some (py_split x ", ")

/-- The language lambda of _extract_song (line 85):
ISO639Utils.short2long(x.casefold()) or 'und'.  Python's or falls through
to 'und' when the lookup yields None (or an empty string). -/
def language_of (U : Utils) (x : String) : String :=
  match U.short2long (U.casefold x) with
  | some code => if code = "" then "und" else code
  | none => "und"

/-- The traverse_obj dictionary of _extract_song (jiosaavn.py lines
63-88), with get_all=False: a branch list (None, (a, b)) takes the first
branch whose full traversal (filters included) yields a value. -/
def traverse_info (U : Utils) (d : SongData) : SongInfo :=
  { id := d.id,
    title := d.song <|> d.title,
    album := d.album.map U.clean_html,
    thumbnail := (d.image.bind U.url_or_none).map U.thumb_resize,
    description := d.more_info.description,
    duration := (d.duration.bind U.int_or_none) <|> (d.more_info.duration.bind U.int_or_none),
    release_year := d.year.bind U.int_or_none,
    timestamp := d.more_info.release_time.bind U.unified_timestamp,
    upload_date := d.release_date.bind U.unified_strdate,
    view_count := d.play_count.bind U.int_or_none,
    channel := d.label <|> d.more_info.label,
    channel_id := d.label_id <|> d.more_info.label_id,
    channel_url := (d.label_url.bind channel_url_of) <|> (d.more_info.label_url.bind channel_url_of),
    series := d.more_info.show_title,
    series_id := d.more_info.show_id,
    season := d.more_info.season_title,
    season_number := d.more_info.season_no.bind U.int_or_none,
    season_id := d.more_info.season_id,
    episode_number := d.more_info.episode_number.bind U.int_or_none,
    artists := d.primary_artists.bind split_names,
    webpage_url := d.perma_url.bind U.url_or_none,
    language := d.language.map (language_of U),
    media_type := d.type_of.map (fun x => if x = "" then "song" else x),
    cast := d.starring.bind split_names,
    display_id := none,
    old_archive_ids := none }

/-- The display_id block of _extract_song (lines 89-91).  The walrus
webpage_url is info['webpage_url'] or url; when it is truthy the
display_id and _old_archive_ids keys are added.  make_archive_id is
modelled from the spec via the module's own tests: the archive id of
JioSaavnSongIE for display id x is "jiosaavnsong " followed by x. -/
def add_display_id (U : Utils) (url : Option String) (info : SongInfo) : SongInfo :=
  let wu : Option String :=
    match info.webpage_url with
    | some w => if w = "" then url else some w
    | none => url
  match wu with
  | some w =>
    if w = "" then info
    else { info with
      display_id := some (U.url_basename w),
      old_archive_ids := some ["jiosaavnsong " ++ U.url_basename w] }
  | none => info

/-- The featured_artists block of _extract_song (lines 93-94).  When the
payload has a truthy featured_artists string the code runs
info['artists'].extend(...); if the dict has no artists key (primary
artists falsy) this raises a KeyError, which the embedding returns as an
error. -/
def add_featured (d : SongData) (info : SongInfo) : Except String SongInfo :=
  match d.featured_artists with
  | none => .ok info
  | some f =>
    if f = "" then .ok info
    else
      match info.artists with
      | some l => .ok { info with artists := some (l ++ py_split f ", ") }
      | none => .error "KeyError: artists"

/-- Truthiness of info.get('artists'): a present, non-empty list. -/
def artists_truthy (info : SongInfo) : Bool :=
  match info.artists with
  | some (_ :: _) => true
  | _ => false

/-- The artistMap fallback block of _extract_song (lines 96-99):
when info has no (truthy) artists, collect the name of every entry of
more_info.artistMap.primary_artists and use the list if non-empty. -/
def artistmap_fallback (d : SongData) (info : SongInfo) : SongInfo :=
  if artists_truthy info then info
  else
    let primary_artists := d.more_info.artistMap_primary_artists.filterMap id
    if primary_artists.isEmpty then info
    else { info with artists := some primary_artists }

/-- The dedup block of _extract_song (lines 101-102):
info['artists'] = list(set(info['artists'])) when the artists value is
truthy.  set_to_list is the interpreter's set enumeration: its order
depends on CPython's per-process string hash seed, so it is an explicit
parameter of the embedding. -/
def dedup_artists (set_to_list : List String → List String) (info : SongInfo) : SongInfo :=
  match info.artists with
  | some (a :: l) => { info with artists := some (set_to_list (a :: l)) }
  | _ => info

/-- JioSaavnBaseIE._extract_song (jiosaavn.py lines 62-104), composed of
its four statement blocks in source order. -/
def extract_song (U : Utils) (set_to_list : List String → List String)
    (d : SongData) (url : Option String) : Except String SongInfo :=
  (add_featured d (add_display_id U url (traverse_info U d))).map
    (fun info => dedup_artists set_to_list (artistmap_fallback d info))

end JioSaavn

namespace JioSaavn

/-- JioSaavnBaseIE._VALID_BITRATES (jiosaavn.py line 28). -/
def VALID_BITRATES : List String := ["16", "32", "64", "128", "320"]

/-- Modelled from the spec: the framework's _configuration_arg returns
the list of configured values for the key, or the default when nothing is
configured.  configured = none models an unconfigured key. -/
def configuration_arg (configured : Option (List String)) (default_value : List String) :
    List String :=
  configured.getD default_value

/-- JioSaavnBaseIE.requested_bitrates (jiosaavn.py lines 30-37): looks up
the configured bitrates (default ['128', '320']) and raises ValueError
when the set difference with _VALID_BITRATES is non-empty; the error case
is returned as .error. -/
def requested_bitrates (configured : Option (List String)) : Except Unit (List String) :=
  let requested := configuration_arg configured ["128", "320"]
  if requested.all (fun b => VALID_BITRATES.contains b) then .ok requested
  else .error ()

/-- The JSON object returned by the song.generateAuthToken API call in
_extract_formats, restricted to the fields the code reads (type_of models
the 'type' key).  The whole response is optional at use sites: the
download is not fatal and yields None on failure. -/
structure MediaData where
  auth_url : Option String := none
  type_of : Option String := none

/-- One format dict yielded by _extract_formats (jiosaavn.py lines
54-60). -/
structure AudioFormat where
  url : String
  ext : Option String
  format_id : String
  abr : Option Int
  vcodec : String
deriving DecidableEq

/-- JioSaavnBaseIE._extract_formats (jiosaavn.py lines 39-60).  api gives
the (possibly failed) API response for each requested bitrate; the
traverse_obj check traverse_obj(media_data, ('auth_url', {url_or_none}))
must produce a truthy value, else the bitrate is skipped with a warning.
The yielded url is the raw auth_url value, abr is int(bitrate), and ext
maps a reported type of 'mp4' to 'm4a'. -/
def extract_formats (U : Utils) (api : String → Option MediaData) :
    List String → List AudioFormat
  | [] => []
  | bitrate :: rest =>
    match api bitrate with
    | none => extract_formats U api rest
    | some m =>
      match m.auth_url with
      | none => extract_formats U api rest
      | some raw =>
        match U.url_or_none raw with
        | none => extract_formats U api rest
        | some v =>
          if v = "" then extract_formats U api rest
          else
            { url := raw,
              ext := if m.type_of = some "mp4" then some "m4a" else m.type_of,
              format_id := bitrate,
              abr := py_int bitrate,
              vcodec := "none" } :: extract_formats U api rest

/-- Truthiness of the auth check of _extract_formats (line 50) for one
bitrate's response: the traversal media_data -> auth_url -> url_or_none
yields a non-empty value. -/
def auth_truthy (U : Utils) (m : Option MediaData) : Bool :=
  match (m.bind MediaData.auth_url).bind U.url_or_none with
  | some v => !(v = "")
  | none => false

end JioSaavn

/-! ## jiosaavn.py: JioSaavnPlaylistIE pagination (lines 284-301) -/

namespace JioSaavnPlaylist

/-- JioSaavnPlaylistIE._PAGE_SIZE. -/
def PAGE_SIZE : Nat := 50

/-- One page of the playlist API response, restricted to the fields the
pagination logic reads. -/
structure PlaylistPage where
  list_count : Nat
  listname : Option String := none

/-- The framework's InAdvancePagedList as built by _real_extract: a page
function, a total page count and a page size.  The page contents type is
abstract. -/
structure InAdvancePagedList (α : Type) where
  pagefunc : Nat → α
  page_count : Nat
  page_size : Nat

/-- JioSaavnPlaylistIE._entries page selection (jiosaavn.py lines
290-291): page 0 reuses the already fetched first page data, page k > 0
fetches with page parameter k + 1.  fetch p models
_fetch_page(token, p) for the fixed playlist token. -/
def playlist_entries (fetch : Nat → PlaylistPage) (first_page_data : PlaylistPage)
    (page : Nat) : PlaylistPage :=
  if page = 0 then first_page_data else fetch (page + 1)

/-- JioSaavnPlaylistIE._real_extract pagination (jiosaavn.py lines
294-301): fetch the first page with page parameter 1, compute
total_pages = ceil(list_count / _PAGE_SIZE) with exact division, and
build the in-advance paged list. -/
def playlist_real_extract (fetch : Nat → PlaylistPage) : InAdvancePagedList PlaylistPage :=
  let playlist_data := fetch 1
  { pagefunc := playlist_entries fetch playlist_data,
    page_count := Nat.ceil ((playlist_data.list_count : ℚ) / (PAGE_SIZE : ℚ)),
    page_size := PAGE_SIZE }

end JioSaavnPlaylist

/-! ## jiosaavn.py: JioSaavnShowPlaylistIE URL matching (lines 304-344) -/

namespace JioSaavnShow

/-- Characters excluded by the name segment class of _VALID_URL. -/
def name_stop (c : Char) : Bool := c = '#' || c = '/' || c = '?'

/-- Characters excluded by the id segment class of _VALID_URL. -/
def id_stop (c : Char) : Bool := c = '/' || c = '?' || c = '#'

/-- Matches the literal prefix p against cs, returning the remainder. -/
def eat : List Char → List Char → Option (List Char)
  | [], cs => some cs
  | _ :: _, [] => none
  | p :: ps, c :: cs => if c = p then eat ps cs else none

/-- Matches an optional literal prefix (the regex (?:p)? followed by a
continuation that cannot also start with p). -/
def eat_opt (p cs : List Char) : List Char :=
  (eat p cs).getD cs

/-- The scheme part https? :// of _URL_BASE_RE. -/
def eat_scheme (cs : List Char) : Option (List Char) :=
  match eat "https://".toList cs with
  | some r => some r
  | none => eat "http://".toList cs

/-- JioSaavnShowPlaylistIE._VALID_URL (jiosaavn.py line 306) as a matcher:
https?://(?:www.)?(?:jio)?saavn.com/shows/[^#/?]+/(season digits)/(id),
anchored at the start like re.match; returns the season and id groups. -/
def match_show_url (cs : List Char) : Option (List Char × List Char) :=
  (eat_scheme cs).bind fun cs =>
  let cs := eat_opt "www.".toList cs
  let cs := eat_opt "jio".toList cs
  (eat "saavn.com/shows/".toList cs).bind fun cs =>
  let name := cs.takeWhile (fun c => !(name_stop c))
  let rest := cs.dropWhile (fun c => !(name_stop c))
  if name.isEmpty then none
  else
    match rest with
    | '/' :: rest =>
      let season := rest.takeWhile Char.isDigit
      let rest2 := rest.dropWhile Char.isDigit
      if season.isEmpty then none
      else
        match rest2 with
        | '/' :: rest3 =>
          let vid := rest3.takeWhile (fun c => !(id_stop c))
          if vid.isEmpty then none else some (season, vid)
        | _ => none
    | _ => none

/-- JioSaavnShowPlaylistIE._real_extract playlist id (jiosaavn.py lines
335-337): season_id and show_id are the two capture groups in order of
appearance, and the playlist id is the f-string show_id-season_id. -/
def show_playlist_id (url : String) : Option String :=
  (match_show_url url.toList).map
    (fun g => String.mk g.2 ++ "-" ++ String.mk g.1)

end JioSaavnShow

/-! ## jiosaavn.py: JioSaavnArtistIE result generation (lines 365-391) -/

namespace JioSaavnArtist

/-- JioSaavnArtistIE._PAGE_SIZE. -/
def PAGE_SIZE : Nat := 50

/-- One artist API page, restricted to the field the pagination reads:
the topSongs array.  The entry type is abstract. -/
structure ArtistPage (α : Type) where
  topSongs : List α

/-- JioSaavnArtistIE._entries (jiosaavn.py lines 372-375): page 0 uses
the stored first page, any other page is fetched; the page's entries are
the topSongs of that page, one URL result per song (mk models the
url_result built by _yield_songs for one song). -/
def artist_entries {α β : Type} (fetch : Nat → ArtistPage α) (first_page : ArtistPage α)
    (mk : α → β) (page : Nat) : List β :=
  ((if page = 0 then first_page else fetch page).topSongs).map mk

/-- The while loop of JioSaavnArtistIE._generate_result (jiosaavn.py
lines 381-391), with the remaining iteration budget of the
while page < 20000 counter as fuel: stop when the budget is exhausted or
the current page's entry list is empty, else collect the entries and move
to the next page. -/
def generate_loop {β : Type} (entries : Nat → List β) : Nat → Nat → List β
  | _, 0 => []
  | page, fuel + 1 =>
    if (entries page).length = 0 then []
    else entries page ++ generate_loop entries (page + 1) fuel

/-- JioSaavnArtistIE._generate_result (jiosaavn.py lines 377-391): run
the page loop from page 0 with the static limit of 20000 pages. -/
def generate_result {α β : Type} (fetch : Nat → ArtistPage α) (first_page : ArtistPage α)
    (mk : α → β) : List β :=
  generate_loop (artist_entries fetch first_page mk) 0 20000

end JioSaavnArtist

/-- A concrete HTML-scrape behaviour for the claim C5 witness. -/
def find0 : String → Option String := fun _ => some "elem"

/-- A concrete attribute table for the claim C5 witness. -/
def attrs0 : String → List (String × String) := fun _ => [("data-video-id", "6388008634112")]

/-- A concrete page fetcher for the claim C2 witness: every page reports
a list_count of 120 songs. -/
def fetch0 : Nat → JioSaavnPlaylist.PlaylistPage := fun _ => { list_count := 120 }

/-- A concrete choice of the framework utilities, for witnesses. -/
def U0 : JioSaavn.Utils :=
  { clean_html := id, url_or_none := some, int_or_none := fun _ => none,
    unified_timestamp := fun _ => none, unified_strdate := fun _ => none,
    url_basename := id, casefold := id,
    short2long := fun s => if s = "hi" then some "hin" else none,
    thumb_resize := id }

/-- A concrete API behaviour for the claim C9 witness: only bitrate 320
succeeds. -/
def api0 : String → Option JioSaavn.MediaData := fun b =>
  if b = "320" then some { auth_url := some "https://a.example/x", type_of := some "mp4" }
  else none

/-- The format that api0 yields for bitrate 320. -/
def fmt320 : JioSaavn.AudioFormat :=
  { url := "https://a.example/x", ext := some "m4a", format_id := "320",
    abr := some 320, vcodec := "none" }

/-- A concrete song payload carrying only a language field, for the
claim C7 witness. -/
def d7 : JioSaavn.SongData := { language := some "hi" }

/-- The first-occurrence set enumeration as a set-to-list conversion. -/
def py_set_list : List String → List String := set_list_first []

/-- The record extracted from d7. -/
def info7 : JioSaavn.SongInfo := { language := some "hin" }

/-- Python truthiness of an optional string: present and non-empty. -/
def str_truthy : Option String → Bool
  | some s => !(s = "")
  | none => false

/-- d with its more_info.artistMap primary artist names replaced, leaving
every other field unchanged. -/
def with_artistmap (d : JioSaavn.SongData) (am : List (Option String)) : JioSaavn.SongData :=
  { d with more_info := { d.more_info with artistMap_primary_artists := am } }

/-- A concrete payload with primary and featured artists, for the claim
C10 witness. -/
def d10 : JioSaavn.SongData :=
  { primary_artists := some "A, B", featured_artists := some "C" }

/-- The record extracted from d10: the merged, deduplicated artists. -/
def info10 : JioSaavn.SongInfo := { artists := some ["A", "B", "C"] }

/-- Agreement of two extracted records up to the enumeration order of the
artists list: every other field is equal, and the artists lists (when
present on both sides) have the same members. -/
def info_agree_mod_artists (i j : JioSaavn.SongInfo) : Prop :=
  ({ i with artists := none } = { j with artists := none }) ∧
  (match i.artists, j.artists with
   | none, none => True
   | some l, some m => ∀ a, a ∈ l ↔ a ∈ m
   | _, _ => False)

/-- Agreement of two extraction outcomes up to the artists enumeration
order: equal errors, or records agreeing modulo the artists order. -/
def result_agree_mod_artists : Except String JioSaavn.SongInfo →
    Except String JioSaavn.SongInfo → Prop
  | .ok i, .ok j => info_agree_mod_artists i j
  | .error e, .error e2 => e = e2
  | _, _ => False

/-- A concrete payload with two primary artists, for the claim C3
counterexample and witness. -/
def d0 : JioSaavn.SongData := { primary_artists := some "A, B" }

/-- The artists field of an extraction outcome. -/
def artists_of : Except String JioSaavn.SongInfo → Option (List String)
  | .ok i => i.artists
  | .error _ => none

/-! ## Theorems for the claims -/

/-- Claim C4: both CBN extractors forward entirely to third-party player
URL construction: for every video id the result is exactly the dict with
_type url_transparent, ie_key BrightcoveNew and the Brightcove player URL
followed by the video id, and CBNFamilyIE passes the id captured from the
URL directly as that video id. -/
theorem claim_C4 (video_id : String) :
    CBN.extract_brightcove video_id =
      { type_of := "url_transparent",
        url := "https://players.brightcove.net/734546207001/TADSYViJy_default/index.html?videoId="
          ++ video_id,
        ie_key := "BrightcoveNew" } ∧
    CBN.CBNFamily_real_extract video_id = CBN.extract_brightcove video_id := by
  refine ⟨?_, rfl⟩
  unfold CBN.extract_brightcove
  have h : "https://players.brightcove.net/" ++ CBN.ACCOUNT_ID ++ "/" ++ CBN.PLAYER_ID ++ "_"
      ++ CBN.EMBED ++ "/index.html?videoId=" =
      "https://players.brightcove.net/734546207001/TADSYViJy_default/index.html?videoId=" := by
    decide
  rw [h]

/-- Claim C5: CBNIE._real_extract delegates using the data-video-id
attribute of the video-js element whose id matches the player pattern:
whenever the scrape pipeline finds the element and its data-video-id
attribute, that attribute's string value is the video id passed to the
Brightcove URL construction. -/
theorem claim_C5 (find_el : String → Option String)
    (extract_attrs : String → List (String × String)) (webpage el video_id : String)
    (hfind : find_el webpage = some el)
    (hattr : (extract_attrs el).lookup "data-video-id" = some video_id) :
    CBN.CBN_video_id find_el extract_attrs webpage = some video_id ∧
    CBN.CBN_real_extract find_el extract_attrs webpage = CBN.extract_brightcove video_id := by
  have h : CBN.CBN_video_id find_el extract_attrs webpage = some video_id := by
    simp [CBN.CBN_video_id, hfind, hattr]
  exact ⟨h, by simp [CBN.CBN_real_extract, h]⟩

/-- Witness for claim C5 at a concrete page. -/
theorem claim_C5_witness :
    find0 "page" = some "elem" ∧
    (attrs0 "elem").lookup "data-video-id" = some "6388008634112" ∧
    CBN.CBN_real_extract find0 attrs0 "page" = CBN.extract_brightcove "6388008634112" :=
  ⟨rfl, by decide,
    (claim_C5 find0 attrs0 "page" "elem" "6388008634112" rfl (by decide)).2⟩

/-- Claim C8: requested_bitrates raises ValueError iff some configured
bitrate lies outside the valid set; without configuration it returns the
default list, and on success it returns the configured list unchanged. -/
theorem claim_C8 :
    (∀ cfg, JioSaavn.requested_bitrates cfg = .error () ↔
      ∃ b ∈ cfg.getD ["128", "320"], b ∉ JioSaavn.VALID_BITRATES) ∧
    JioSaavn.requested_bitrates none = .ok ["128", "320"] ∧
    (∀ l, (∀ b ∈ l, b ∈ JioSaavn.VALID_BITRATES) →
      JioSaavn.requested_bitrates (some l) = .ok l) := by
  refine ⟨fun cfg => ?_, rfl, fun l hl => ?_⟩
  · unfold JioSaavn.requested_bitrates JioSaavn.configuration_arg
    by_cases h : (cfg.getD ["128", "320"]).all (fun b => JioSaavn.VALID_BITRATES.contains b) = true
    · simp only [h, if_true]
      constructor
      · intro hco
        exact absurd hco (by simp)
      · rintro ⟨b, hb, hnb⟩
        rw [List.all_eq_true] at h
        exact absurd (by simpa using h b hb) hnb
    · simp only [h, if_false]
      rw [List.all_eq_true] at h
      push_neg at h
      obtain ⟨b, hb, hnb⟩ := h
      exact ⟨fun _ => ⟨b, hb, by simpa using hnb⟩, fun _ => rfl⟩
  · unfold JioSaavn.requested_bitrates JioSaavn.configuration_arg
    have h : (some l).getD ["128", "320"] = l := rfl
    rw [h]
    have hall : l.all (fun b => JioSaavn.VALID_BITRATES.contains b) = true := by
      rw [List.all_eq_true]
      intro b hb
      simpa using hl b hb
    simp only [hall, if_true]

/-- Witness for claim C8: a valid configured list is returned unchanged
and a list holding an invalid bitrate raises. -/
theorem claim_C8_witness :
    (∀ b ∈ ["64"], b ∈ JioSaavn.VALID_BITRATES) ∧
    JioSaavn.requested_bitrates (some ["64"]) = .ok ["64"] ∧
    JioSaavn.requested_bitrates (some ["64", "999"]) = .error () :=
  ⟨by decide, claim_C8.2.2 ["64"] (by decide),
    (claim_C8.1 (some ["64", "999"])).mpr ⟨"999", by decide, by decide⟩⟩

/-- Claim C2: for a playlist whose first page reports list_count, the
paged list has page size 50, its page count is exactly the ceiling of
list_count / 50 (characterised by its Galois property), page 0 of the
page function reuses the already fetched first page data (fetched with
page parameter 1), and every page index k > 0 fetches with page
parameter k + 1. -/
theorem claim_C2 (fetch : Nat → JioSaavnPlaylist.PlaylistPage) :
    (JioSaavnPlaylist.playlist_real_extract fetch).page_size = 50 ∧
    (∀ m, (JioSaavnPlaylist.playlist_real_extract fetch).page_count ≤ m ↔
      (fetch 1).list_count ≤ m * 50) ∧
    (JioSaavnPlaylist.playlist_real_extract fetch).pagefunc 0 = fetch 1 ∧
    (∀ k, k ≠ 0 →
      (JioSaavnPlaylist.playlist_real_extract fetch).pagefunc k = fetch (k + 1)) := by
  refine ⟨rfl, fun m => ?_, rfl, fun k hk => ?_⟩
  · show Nat.ceil (((fetch 1).list_count : ℚ) / (JioSaavnPlaylist.PAGE_SIZE : ℚ)) ≤ m ↔ _
    rw [Nat.ceil_le, div_le_iff₀ (by norm_num [JioSaavnPlaylist.PAGE_SIZE])]
    rw [show ((JioSaavnPlaylist.PAGE_SIZE : Nat) : ℚ) = (50 : ℚ) by norm_num [JioSaavnPlaylist.PAGE_SIZE]]
    constructor
    · intro h
      exact_mod_cast h
    · intro h
      exact_mod_cast h
  · show JioSaavnPlaylist.playlist_entries fetch (fetch 1) k = fetch (k + 1)
    simp [JioSaavnPlaylist.playlist_entries, hk]

/-- Witness for claim C2 at a concrete fetcher: 120 songs give at most 3
pages of 50, and page 2 fetches with page parameter 3. -/
theorem claim_C2_witness :
    ((JioSaavnPlaylist.playlist_real_extract fetch0).page_count ≤ 3 ↔
      (fetch0 1).list_count ≤ 3 * 50) ∧
    (2 : Nat) ≠ 0 ∧
    (JioSaavnPlaylist.playlist_real_extract fetch0).pagefunc 2 = fetch0 3 :=
  ⟨(claim_C2 fetch0).2.1 3, by decide, (claim_C2 fetch0).2.2.2 2 (by decide)⟩

/-- The page loop of _generate_result, analysed for an arbitrary page
function, any starting page, and any remaining iteration budget: some
number n of consecutive non-empty pages is collected, the loop stops
within the budget, and it stops at an empty page whenever the budget was
not exhausted. -/
theorem generate_loop_spec {β : Type} (entries : Nat → List β) :
    ∀ fuel page, ∃ n, n ≤ fuel ∧ (∀ i, i < fuel → i < n ∨ n ≤ i) ∧
      (∀ i, i < n → entries (page + i) ≠ []) ∧
      (n < fuel → entries (page + n) = []) ∧
      JioSaavnArtist.generate_loop entries page fuel =
        ((List.range n).map (fun i => entries (page + i))).flatten := by
  intro fuel
  induction fuel with
  | zero =>
    intro page
    exact ⟨0, Nat.le_refl 0, fun i hi => absurd hi (Nat.not_lt_zero i),
      fun i hi => absurd hi (Nat.not_lt_zero i),
      fun h => absurd h (lt_irrefl 0), by simp [JioSaavnArtist.generate_loop]⟩
  | succ fuel ih =>
    intro page
    by_cases h : entries page = []
    · refine ⟨0, Nat.zero_le _, fun i _ => by omega,
        fun i hi => absurd hi (Nat.not_lt_zero i), fun _ => by simpa using h, ?_⟩
      have hlen : (entries page).length = 0 := by simp [h]
      simp [JioSaavnArtist.generate_loop, hlen]
    · obtain ⟨n, hle, _, hne, hemp, heq⟩ := ih (page + 1)
      refine ⟨n + 1, Nat.succ_le_succ hle, fun i _ => by omega, ?_, ?_, ?_⟩
      · intro i hi
        cases i with
        | zero => simpa using h
        | succ j =>
          have hj := hne j (Nat.lt_of_succ_lt_succ hi)
          rwa [show page + 1 + j = page + (j + 1) by omega] at hj
      · intro hlt
        have he := hemp (Nat.lt_of_succ_lt_succ hlt)
        rwa [show page + 1 + n = page + (n + 1) by omega] at he
      · have hlen : ¬ (entries page).length = 0 := by
          simpa [List.length_eq_zero] using h
        rw [JioSaavnArtist.generate_loop, if_neg hlen, heq,
          List.range_succ_eq_map, List.map_cons, List.map_map, List.flatten_cons]
        have hf : ((fun i => entries (page + i)) ∘ Nat.succ) = fun i => entries (page + 1 + i) := by
          funext i
          simp only [Function.comp_apply]
          congr 1
          omega
        rw [hf]
        simp

/-- Claim C1: for every artist token (the fetch behaviour, the stored
first page and the per-song result builder), _generate_result terminates
within the 20000-page ceiling: there is a page count n of at most 20000
such that every earlier page is non-empty, the loop stopped at the first
empty page whenever the ceiling was not reached, and the result is the
concatenation of the entries of pages 0, 1, ..., n-1 in increasing page
order. -/
theorem claim_C1 {α β : Type} (fetch : Nat → JioSaavnArtist.ArtistPage α)
    (first_page : JioSaavnArtist.ArtistPage α) (mk : α → β) :
    ∃ n, n ≤ 20000 ∧
      (∀ i, i < n → JioSaavnArtist.artist_entries fetch first_page mk i ≠ []) ∧
      (n < 20000 → JioSaavnArtist.artist_entries fetch first_page mk n = []) ∧
      JioSaavnArtist.generate_result fetch first_page mk =
        ((List.range n).map (JioSaavnArtist.artist_entries fetch first_page mk)).flatten := by
  obtain ⟨n, h1, _, h2, h3, h4⟩ :=
    generate_loop_spec (JioSaavnArtist.artist_entries fetch first_page mk) 20000 0
  refine ⟨n, h1, fun i hi => ?_, fun hlt => ?_, ?_⟩
  · have := h2 i hi
    rwa [Nat.zero_add] at this
  · have := h3 hlt
    rwa [Nat.zero_add] at this
  · have := h4
    rw [JioSaavnArtist.generate_result]
    simpa [Nat.zero_add] using this

/-- Claim C9: _extract_formats never aborts on a single bitrate failure:
a bitrate whose response fails the auth_url check is skipped and the rest
of the list is still processed; a bitrate passing the check contributes
exactly one format built from its response; and every yielded format has
format_id equal to the bitrate string, abr equal to int(bitrate), vcodec
'none', the raw auth_url as url, and ext 'm4a' when the reported type is
'mp4' and the reported type otherwise. -/
theorem claim_C9 (U : JioSaavn.Utils) (api : String → Option JioSaavn.MediaData) :
    (∀ b rest, JioSaavn.auth_truthy U (api b) = false →
      JioSaavn.extract_formats U api (b :: rest) = JioSaavn.extract_formats U api rest) ∧
    (∀ b rest, JioSaavn.auth_truthy U (api b) = true →
      ∃ m raw, api b = some m ∧ m.auth_url = some raw ∧
        JioSaavn.extract_formats U api (b :: rest) =
          { url := raw,
            ext := if m.type_of = some "mp4" then some "m4a" else m.type_of,
            format_id := b, abr := py_int b,
            vcodec := "none" } :: JioSaavn.extract_formats U api rest) ∧
    (∀ bitrates fmt, fmt ∈ JioSaavn.extract_formats U api bitrates →
      fmt.format_id ∈ bitrates ∧ fmt.abr = py_int fmt.format_id ∧ fmt.vcodec = "none" ∧
      ∃ m raw, api fmt.format_id = some m ∧ m.auth_url = some raw ∧ fmt.url = raw ∧
        fmt.ext = (if m.type_of = some "mp4" then some "m4a" else m.type_of)) := by
  refine ⟨fun b rest hfail => ?_, fun b rest hok => ?_, fun bitrates => ?_⟩
  · unfold JioSaavn.auth_truthy at hfail
    cases hm : api b with
    | none => simp only [JioSaavn.extract_formats, hm]
    | some m =>
      rw [hm] at hfail
      simp only [Option.some_bind] at hfail
      cases ha : m.auth_url with
      | none => simp only [JioSaavn.extract_formats, hm, ha]
      | some raw =>
        rw [ha] at hfail
        simp only [Option.some_bind] at hfail
        cases hu : U.url_or_none raw with
        | none => simp only [JioSaavn.extract_formats, hm, ha, hu]
        | some v =>
          rw [hu] at hfail
          have hv : v = "" := by
            by_contra hne
            simp [hne] at hfail
          simp only [JioSaavn.extract_formats, hm, ha, hu, hv, if_pos]
  · unfold JioSaavn.auth_truthy at hok
    cases hm : api b with
    | none => rw [hm] at hok; simp at hok
    | some m =>
      rw [hm] at hok
      simp only [Option.some_bind] at hok
      cases ha : m.auth_url with
      | none => rw [ha] at hok; simp at hok
      | some raw =>
        rw [ha] at hok
        simp only [Option.some_bind] at hok
        cases hu : U.url_or_none raw with
        | none => rw [hu] at hok; simp at hok
        | some v =>
          rw [hu] at hok
          have hv : ¬ v = "" := by simpa using hok
          refine ⟨m, raw, rfl, ha, ?_⟩
          simp only [JioSaavn.extract_formats, hm, ha, hu]
          rw [if_neg hv]
  · induction bitrates with
    | nil => intro fmt hmem; simp [JioSaavn.extract_formats] at hmem
    | cons b rest ih =>
      intro fmt hmem
      cases hm : api b with
      | none =>
        simp only [JioSaavn.extract_formats, hm] at hmem
        obtain ⟨h1, h2, h3, h4⟩ := ih fmt hmem
        exact ⟨List.mem_cons_of_mem b h1, h2, h3, h4⟩
      | some m =>
        cases ha : m.auth_url with
        | none =>
          simp only [JioSaavn.extract_formats, hm, ha] at hmem
          obtain ⟨h1, h2, h3, h4⟩ := ih fmt hmem
          exact ⟨List.mem_cons_of_mem b h1, h2, h3, h4⟩
        | some raw =>
          cases hu : U.url_or_none raw with
          | none =>
            simp only [JioSaavn.extract_formats, hm, ha, hu] at hmem
            obtain ⟨h1, h2, h3, h4⟩ := ih fmt hmem
            exact ⟨List.mem_cons_of_mem b h1, h2, h3, h4⟩
          | some v =>
            by_cases hv : v = ""
            · simp only [JioSaavn.extract_formats, hm, ha, hu, hv, if_pos] at hmem
              obtain ⟨h1, h2, h3, h4⟩ := ih fmt hmem
              exact ⟨List.mem_cons_of_mem b h1, h2, h3, h4⟩
            · simp only [JioSaavn.extract_formats, hm, ha, hu, if_neg hv] at hmem
              rcases List.mem_cons.mp hmem with hhead | htail
              · subst hhead
                exact ⟨List.mem_cons_self _ _, rfl, rfl, m, raw, hm, ha, rfl, rfl⟩
              · obtain ⟨h1, h2, h3, h4⟩ := ih fmt htail
                exact ⟨List.mem_cons_of_mem b h1, h2, h3, h4⟩

/-- Witness for claim C9 at a concrete API: bitrate 128 fails and is
skipped, bitrate 320 yields its format with the stated fields. -/
theorem claim_C9_witness :
    JioSaavn.auth_truthy U0 (api0 "128") = false ∧
    JioSaavn.extract_formats U0 api0 ["128", "320"] = JioSaavn.extract_formats U0 api0 ["320"] ∧
    fmt320 ∈ JioSaavn.extract_formats U0 api0 ["128", "320"] ∧
    fmt320.format_id ∈ ["128", "320"] ∧ fmt320.abr = py_int fmt320.format_id ∧
    fmt320.vcodec = "none" :=
  ⟨rfl, (claim_C9 U0 api0).1 "128" ["320"] rfl, by decide,
    ((claim_C9 U0 api0).2.2 ["128", "320"] fmt320 (by decide)).1,
    ((claim_C9 U0 api0).2.2 ["128", "320"] fmt320 (by decide)).2.1,
    ((claim_C9 U0 api0).2.2 ["128", "320"] fmt320 (by decide)).2.2.1⟩

/-- The display_id block never touches the language field. -/
theorem add_display_id_language (U : JioSaavn.Utils) (u : Option String)
    (i : JioSaavn.SongInfo) : (JioSaavn.add_display_id U u i).language = i.language := by
  cases hw : i.webpage_url with
  | none =>
    cases hu : u with
    | none => simp [JioSaavn.add_display_id, hw]
    | some w => by_cases h : w = "" <;> simp [JioSaavn.add_display_id, hw, h]
  | some w =>
    by_cases h : w = ""
    · cases hu : u with
      | none => simp [JioSaavn.add_display_id, hw, h]
      | some w2 => by_cases h2 : w2 = "" <;> simp [JioSaavn.add_display_id, hw, h, h2]
    · simp [JioSaavn.add_display_id, hw, h]

/-- The display_id block never touches the artists field. -/
theorem add_display_id_artists (U : JioSaavn.Utils) (u : Option String)
    (i : JioSaavn.SongInfo) : (JioSaavn.add_display_id U u i).artists = i.artists := by
  cases hw : i.webpage_url with
  | none =>
    cases hu : u with
    | none => simp [JioSaavn.add_display_id, hw]
    | some w => by_cases h : w = "" <;> simp [JioSaavn.add_display_id, hw, h]
  | some w =>
    by_cases h : w = ""
    · cases hu : u with
      | none => simp [JioSaavn.add_display_id, hw, h]
      | some w2 => by_cases h2 : w2 = "" <;> simp [JioSaavn.add_display_id, hw, h, h2]
    · simp [JioSaavn.add_display_id, hw, h]

/-- The featured block is the identity without a featured string. -/
theorem add_featured_none (d : JioSaavn.SongData) (i : JioSaavn.SongInfo)
    (hf : d.featured_artists = none) : JioSaavn.add_featured d i = .ok i := by
  simp [JioSaavn.add_featured, hf]

/-- The featured block is the identity on an empty featured string. -/
theorem add_featured_empty (d : JioSaavn.SongData) (i : JioSaavn.SongInfo)
    (hf : d.featured_artists = some "") : JioSaavn.add_featured d i = .ok i := by
  simp [JioSaavn.add_featured, hf]

/-- The featured block appends the split featured names to the artists
list when both are present. -/
theorem add_featured_some (d : JioSaavn.SongData) (i : JioSaavn.SongInfo) (f : String)
    (l : List String) (hf : d.featured_artists = some f) (hne : f ≠ "")
    (ha : i.artists = some l) :
    JioSaavn.add_featured d i = .ok { i with artists := some (l ++ py_split f ", ") } := by
  simp [JioSaavn.add_featured, hf, hne, ha]

/-- The featured block raises KeyError when a truthy featured string
meets an absent artists key. -/
theorem add_featured_err (d : JioSaavn.SongData) (i : JioSaavn.SongInfo) (f : String)
    (hf : d.featured_artists = some f) (hne : f ≠ "") (ha : i.artists = none) :
    JioSaavn.add_featured d i = .error "KeyError: artists" := by
  simp [JioSaavn.add_featured, hf, hne, ha]

/-- Inversion of the featured block: either nothing happened (no truthy
featured string), or the split featured names were appended to the
existing artists list. -/
theorem add_featured_inv (d : JioSaavn.SongData) (i j : JioSaavn.SongInfo)
    (h : JioSaavn.add_featured d i = .ok j) :
    (j = i ∧ (d.featured_artists = none ∨ d.featured_artists = some "")) ∨
    (∃ f l, d.featured_artists = some f ∧ f ≠ "" ∧ i.artists = some l ∧
      j = { i with artists := some (l ++ py_split f ", ") }) := by
  cases hf : d.featured_artists with
  | none =>
    rw [add_featured_none d i hf] at h
    exact Or.inl ⟨((Except.ok.injEq _ _).mp h).symm, Or.inl rfl⟩
  | some f =>
    by_cases hfe : f = ""
    · rw [add_featured_empty d i (hfe ▸ hf)] at h
      exact Or.inl ⟨((Except.ok.injEq _ _).mp h).symm, Or.inr (by rw [hfe])⟩
    · cases ha : i.artists with
      | none =>
        rw [add_featured_err d i f hf hfe ha] at h
        exact absurd h (by simp)
      | some l =>
        rw [add_featured_some d i f l hf hfe ha] at h
        exact Or.inr ⟨f, l, rfl, hfe, rfl, ((Except.ok.injEq _ _).mp h).symm⟩

/-- The featured block never touches the language field. -/
theorem add_featured_language (d : JioSaavn.SongData) (i j : JioSaavn.SongInfo)
    (h : JioSaavn.add_featured d i = .ok j) : j.language = i.language := by
  rcases add_featured_inv d i j h with ⟨hj, _⟩ | ⟨f, l, _, _, _, hj⟩ <;> rw [hj]

/-- The fallback block is the identity when artists is truthy. -/
theorem artistmap_fallback_truthy (d : JioSaavn.SongData) (i : JioSaavn.SongInfo)
    (h : JioSaavn.artists_truthy i = true) : JioSaavn.artistmap_fallback d i = i := by
  simp [JioSaavn.artistmap_fallback, h]

/-- The fallback block is the identity when the artistMap names are
empty. -/
theorem artistmap_fallback_empty (d : JioSaavn.SongData) (i : JioSaavn.SongInfo)
    (h1 : JioSaavn.artists_truthy i = false)
    (h2 : (d.more_info.artistMap_primary_artists.filterMap id).isEmpty = true) :
    JioSaavn.artistmap_fallback d i = i := by
  simp [JioSaavn.artistmap_fallback, h1, h2]

/-- The fallback block installs the artistMap names when artists is not
truthy and the names are non-empty. -/
theorem artistmap_fallback_set (d : JioSaavn.SongData) (i : JioSaavn.SongInfo)
    (h1 : JioSaavn.artists_truthy i = false)
    (h2 : (d.more_info.artistMap_primary_artists.filterMap id).isEmpty = false) :
    JioSaavn.artistmap_fallback d i =
      { i with artists := some (d.more_info.artistMap_primary_artists.filterMap id) } := by
  simp [JioSaavn.artistmap_fallback, h1, h2]

/-- The fallback block never touches the language field. -/
theorem artistmap_fallback_language (d : JioSaavn.SongData) (i : JioSaavn.SongInfo) :
    (JioSaavn.artistmap_fallback d i).language = i.language := by
  by_cases h1 : JioSaavn.artists_truthy i = true
  · rw [artistmap_fallback_truthy d i h1]
  · rw [Bool.not_eq_true] at h1
    by_cases h2 : (d.more_info.artistMap_primary_artists.filterMap id).isEmpty = true
    · rw [artistmap_fallback_empty d i h1 h2]
    · rw [Bool.not_eq_true] at h2
      rw [artistmap_fallback_set d i h1 h2]

/-- The dedup block never touches the language field. -/
theorem dedup_artists_language (f : List String → List String) (i : JioSaavn.SongInfo) :
    (JioSaavn.dedup_artists f i).language = i.language := by
  cases ha : i.artists with
  | none => simp [JioSaavn.dedup_artists, ha]
  | some l =>
    cases l with
    | nil => simp [JioSaavn.dedup_artists, ha]
    | cons a l => simp [JioSaavn.dedup_artists, ha]

/-- On a successful extraction, the language field of the result is the
language field built by the traverse_obj dictionary. -/
theorem extract_song_ok_language (U : JioSaavn.Utils) (f : List String → List String)
    (d : JioSaavn.SongData) (u : Option String) (info : JioSaavn.SongInfo)
    (h : JioSaavn.extract_song U f d u = .ok info) :
    info.language = (JioSaavn.traverse_info U d).language := by
  unfold JioSaavn.extract_song at h
  cases hmid : JioSaavn.add_featured d (JioSaavn.add_display_id U u (JioSaavn.traverse_info U d)) with
  | error e => rw [hmid] at h; exact absurd h (by simp [Except.map])
  | ok j =>
    rw [hmid] at h
    simp only [Except.map] at h
    have hinfo : info = JioSaavn.dedup_artists f (JioSaavn.artistmap_fallback d j) :=
      ((Except.ok.injEq _ _).mp h).symm
    rw [hinfo, dedup_artists_language, artistmap_fallback_language,
      add_featured_language d _ j hmid, add_display_id_language]

/-- Claim C7: for a song payload with a language field, the extracted
language value is the ISO 639 long code obtained by the short2long lookup
of the casefolded field value, and is 'und' whenever that lookup produces
no code.  The hypothesis on short2long records that the framework's table
never yields an empty code string. -/
theorem claim_C7 (U : JioSaavn.Utils) (f : List String → List String)
    (d : JioSaavn.SongData) (u : Option String) (s : String) (info : JioSaavn.SongInfo)
    (hs : d.language = some s)
    (hok : JioSaavn.extract_song U f d u = .ok info)
    (hcode : ∀ t, U.short2long t ≠ some "") :
    (∀ code, U.short2long (U.casefold s) = some code → info.language = some code) ∧
    (U.short2long (U.casefold s) = none → info.language = some "und") := by
  have hL : info.language = (JioSaavn.traverse_info U d).language :=
    extract_song_ok_language U f d u info hok
  have hT : (JioSaavn.traverse_info U d).language = (d.language).map (JioSaavn.language_of U) := rfl
  rw [hT, hs] at hL
  simp only [Option.map_some'] at hL
  constructor
  · intro code hc
    have hcne : code ≠ "" := fun he => hcode (U.casefold s) (he ▸ hc)
    rw [hL]
    simp only [JioSaavn.language_of, hc]
    rw [if_neg hcne]
  · intro hc
    rw [hL]
    simp only [JioSaavn.language_of, hc]

/-- The concrete short2long table of U0 never yields an empty code. -/
theorem U0_short2long_ne (t : String) : U0.short2long t ≠ some "" := by
  by_cases h : t = "hi" <;> simp [U0, h]

/-- Witness for claim C7 at a concrete payload: language 'hi' casefolds
to itself and maps to the long code 'hin'. -/
theorem claim_C7_witness :
    d7.language = some "hi" ∧
    JioSaavn.extract_song U0 py_set_list d7 none = .ok info7 ∧
    U0.short2long (U0.casefold "hi") = some "hin" ∧
    info7.language = some "hin" :=
  ⟨rfl, rfl, rfl,
    (claim_C7 U0 py_set_list d7 none "hi" info7 rfl rfl U0_short2long_ne).1 "hin" rfl⟩

/-- py_split_aux never returns an empty list of pieces. -/
theorem py_split_aux_ne_nil (sep : List Char) :
    ∀ fuel cur s, py_split_aux sep fuel cur s ≠ [] := by
  intro fuel
  induction fuel with
  | zero => intro cur s; simp [py_split_aux]
  | succ n ih =>
    intro cur s
    simp only [py_split_aux]
    split
    · simp
    · split
      · simp
      · exact ih _ _

/-- Python str.split always yields at least one piece. -/
theorem py_split_ne_nil (s sep : String) : py_split s sep ≠ [] := by
  unfold py_split
  intro h
  exact py_split_aux_ne_nil sep.toList (s.toList.length + 1) [] s.toList
    (List.map_eq_nil_iff.mp h)

/-- The dedup block is the identity on an absent artists key. -/
theorem dedup_artists_none (f : List String → List String) (i : JioSaavn.SongInfo)
    (h : i.artists = none) : JioSaavn.dedup_artists f i = i := by
  simp [JioSaavn.dedup_artists, h]

/-- The dedup block is the identity on an empty artists list. -/
theorem dedup_artists_nil (f : List String → List String) (i : JioSaavn.SongInfo)
    (h : i.artists = some []) : JioSaavn.dedup_artists f i = i := by
  simp [JioSaavn.dedup_artists, h]

/-- The dedup block rewrites a non-empty artists list to its set
enumeration. -/
theorem dedup_artists_cons (f : List String → List String) (i : JioSaavn.SongInfo)
    (a : String) (l : List String) (h : i.artists = some (a :: l)) :
    JioSaavn.dedup_artists f i = { i with artists := some (f (a :: l)) } := by
  simp [JioSaavn.dedup_artists, h]

/-- artists is truthy on any record holding a non-empty list. -/
theorem artists_truthy_of_ne_nil (i : JioSaavn.SongInfo) (l : List String)
    (h : i.artists = some l) (hne : l ≠ []) : JioSaavn.artists_truthy i = true := by
  cases l with
  | nil => exact absurd rfl hne
  | cons a m => simp [JioSaavn.artists_truthy, h]

/-- Decomposition of a successful _extract_song run into its featured
prefix and its fallback/dedup suffix. -/
theorem extract_song_ok_inv (U : JioSaavn.Utils) (f : List String → List String)
    (d : JioSaavn.SongData) (u : Option String) (info : JioSaavn.SongInfo)
    (h : JioSaavn.extract_song U f d u = .ok info) :
    ∃ j, JioSaavn.add_featured d (JioSaavn.add_display_id U u (JioSaavn.traverse_info U d)) = .ok j ∧
      info = JioSaavn.dedup_artists f (JioSaavn.artistmap_fallback d j) := by
  unfold JioSaavn.extract_song at h
  cases hmid : JioSaavn.add_featured d (JioSaavn.add_display_id U u (JioSaavn.traverse_info U d)) with
  | error e => rw [hmid] at h; exact absurd h (by simp [Except.map])
  | ok j =>
    rw [hmid] at h
    simp only [Except.map] at h
    exact ⟨j, rfl, ((Except.ok.injEq _ _).mp h).symm⟩

/-- The artists value built by the traverse_obj dictionary. -/
theorem traverse_info_artists (U : JioSaavn.Utils) (d : JioSaavn.SongData) :
    (JioSaavn.traverse_info U d).artists = d.primary_artists.bind JioSaavn.split_names := rfl

/-- Claim C10: the artists invariant of _extract_song.  Whenever the
returned record has an artists entry the list has no duplicates; a truthy
featured string in a successful run forces a truthy primary string and
the result's artists are exactly the primary names merged with the
featured names; the artistMap names are never consulted when the primary
or the featured string is truthy; and when both are absent the artists
come from the artistMap names alone (deduplicated, absent when the
artistMap has no names). -/
theorem claim_C10 (U : JioSaavn.Utils) (f : List String → List String)
    (d : JioSaavn.SongData) (u : Option String) (info : JioSaavn.SongInfo)
    (hf : valid_set_order f)
    (hok : JioSaavn.extract_song U f d u = .ok info) :
    (∀ l, info.artists = some l → l.Nodup) ∧
    (∀ ft, d.featured_artists = some ft → ft ≠ "" →
      ∃ p, d.primary_artists = some p ∧ p ≠ "" ∧
      ∃ l, info.artists = some l ∧
        ∀ a, (a ∈ l ↔ a ∈ py_split p ", " ++ py_split ft ", ")) ∧
    ((str_truthy d.primary_artists = true ∨ str_truthy d.featured_artists = true) →
      ∀ am, JioSaavn.extract_song U f (with_artistmap d am) u =
        JioSaavn.extract_song U f d u) ∧
    (str_truthy d.primary_artists = false → str_truthy d.featured_artists = false →
      info.artists =
        (if (d.more_info.artistMap_primary_artists.filterMap id).isEmpty then none
         else some (f (d.more_info.artistMap_primary_artists.filterMap id)))) := by
  obtain ⟨j, hmid, hinfo⟩ := extract_song_ok_inv U f d u info hok
  refine ⟨?_, ?_, ?_, ?_⟩
  · -- no duplicates
    intro l hl
    cases hk : (JioSaavn.artistmap_fallback d j).artists with
    | none =>
      rw [dedup_artists_none f _ hk] at hinfo
      rw [hinfo, hk] at hl
      exact absurd hl (by simp)
    | some m =>
      cases m with
      | nil =>
        rw [dedup_artists_nil f _ hk] at hinfo
        rw [hinfo, hk] at hl
        have : l = [] := ((Option.some.injEq _ _).mp hl).symm
        rw [this]
        exact List.nodup_nil
      | cons a m =>
        rw [dedup_artists_cons f _ a m hk] at hinfo
        rw [hinfo] at hl
        have : l = f (a :: m) := ((Option.some.injEq _ _).mp hl).symm
        rw [this]
        exact (hf (a :: m)).1
  · -- featured merged into primary
    intro ft hft hftne
    rcases add_featured_inv d _ j hmid with ⟨_, hnone | hempty⟩ | ⟨f2, l0, hf2, hf2ne, hart, hj⟩
    · rw [hft] at hnone; exact absurd hnone (by simp)
    · rw [hft] at hempty
      exact absurd ((Option.some.injEq _ _).mp hempty) hftne
    · have hfteq : f2 = ft := by
        rw [hft] at hf2
        exact ((Option.some.injEq _ _).mp hf2).symm
      subst hfteq
      rw [add_display_id_artists, traverse_info_artists] at hart
      cases hp : d.primary_artists with
      | none => rw [hp] at hart; exact absurd hart (by simp)
      | some p =>
        rw [hp] at hart
        simp only [Option.some_bind] at hart
        by_cases hpe : p = ""
        · rw [JioSaavn.split_names, if_pos hpe] at hart
          exact absurd hart (by simp)
        · rw [JioSaavn.split_names, if_neg hpe] at hart
          have hl0 : l0 = py_split p ", " := ((Option.some.injEq _ _).mp hart).symm
          refine ⟨p, rfl, hpe, ?_⟩
          have hja : j.artists = some (l0 ++ py_split f2 ", ") := by rw [hj]
          have hne2 : l0 ++ py_split f2 ", " ≠ [] := by
            intro hc
            exact py_split_ne_nil f2 ", " (List.append_eq_nil.mp hc).2
          cases hlist : l0 ++ py_split f2 ", " with
          | nil => exact absurd hlist hne2
          | cons a m =>
            have htruthy : JioSaavn.artists_truthy j = true :=
              artists_truthy_of_ne_nil j _ hja hne2
            rw [artistmap_fallback_truthy d j htruthy] at hinfo
            rw [dedup_artists_cons f j a m (by rw [hja, hlist])] at hinfo
            refine ⟨f (a :: m), by rw [hinfo], fun x => ?_⟩
            rw [(hf (a :: m)).2 x, ← hlist, hl0]
  · -- artistMap never consulted when primary or featured truthy
    intro htru am
    unfold JioSaavn.extract_song
    have h1 : JioSaavn.traverse_info U (with_artistmap d am) = JioSaavn.traverse_info U d := rfl
    have h2 : ∀ i, JioSaavn.add_featured (with_artistmap d am) i = JioSaavn.add_featured d i :=
      fun i => rfl
    rw [h1, h2, hmid]
    simp only [Except.map]
    have htruthy : JioSaavn.artists_truthy j = true := by
      rcases htru with hp | hftr
      · cases hps : d.primary_artists with
        | none => rw [hps] at hp; simp [str_truthy] at hp
        | some p =>
          rw [hps] at hp
          have hpe : ¬ p = "" := by simpa [str_truthy] using hp
          have hi0 : (JioSaavn.add_display_id U u (JioSaavn.traverse_info U d)).artists =
              some (py_split p ", ") := by
            rw [add_display_id_artists, traverse_info_artists, hps]
            simp only [Option.some_bind]
            rw [JioSaavn.split_names, if_neg hpe]
          rcases add_featured_inv d _ j hmid with ⟨hj, _⟩ | ⟨f2, l0, _, _, hart, hj⟩
          · rw [hj]
            exact artists_truthy_of_ne_nil _ _ hi0 (py_split_ne_nil p ", ")
          · have hja : j.artists = some (l0 ++ py_split f2 ", ") := by rw [hj]
            refine artists_truthy_of_ne_nil j _ hja ?_
            intro hc
            exact py_split_ne_nil f2 ", " (List.append_eq_nil.mp hc).2
      · rcases add_featured_inv d _ j hmid with ⟨_, hnone | hempty⟩ | ⟨f2, l0, hf2, hf2ne, _, hj⟩
        · rw [hnone] at hftr; simp [str_truthy] at hftr
        · rw [hempty] at hftr; simp [str_truthy] at hftr
        · have hja : j.artists = some (l0 ++ py_split f2 ", ") := by rw [hj]
          refine artists_truthy_of_ne_nil j _ hja ?_
          intro hc
          exact py_split_ne_nil f2 ", " (List.append_eq_nil.mp hc).2
    rw [artistmap_fallback_truthy (with_artistmap d am) j htruthy,
      artistmap_fallback_truthy d j htruthy]
  · -- both absent: artists come from the artistMap names
    intro hp hftr
    have hi0 : (JioSaavn.add_display_id U u (JioSaavn.traverse_info U d)).artists = none := by
      rw [add_display_id_artists, traverse_info_artists]
      cases hps : d.primary_artists with
      | none => rfl
      | some p =>
        rw [hps] at hp
        have hpe : p = "" := by simpa [str_truthy] using hp
        simp only [Option.some_bind]
        rw [JioSaavn.split_names, if_pos hpe]
    rcases add_featured_inv d _ j hmid with ⟨hj, _⟩ | ⟨f2, l0, hf2, hf2ne, _, _⟩
    · have hja : j.artists = none := by rw [hj]; exact hi0
      have hfalse : JioSaavn.artists_truthy j = false := by
        simp [JioSaavn.artists_truthy, hja]
      by_cases hne : (d.more_info.artistMap_primary_artists.filterMap id).isEmpty = true
      · rw [artistmap_fallback_empty d _ hfalse hne] at hinfo
        rw [dedup_artists_none f _ hja] at hinfo
        rw [hinfo, hja, if_pos hne]
      · rw [Bool.not_eq_true] at hne
        rw [artistmap_fallback_set d _ hfalse hne] at hinfo
        cases hnames : d.more_info.artistMap_primary_artists.filterMap id with
        | nil => rw [hnames] at hne; simp at hne
        | cons a m =>
          rw [dedup_artists_cons f _ a m (by simp [hnames])] at hinfo
          rw [hinfo, if_neg (by simp [hne]), hnames]
    · rw [hf2] at hftr
      have : f2 = "" := by simpa [str_truthy] using hftr
      exact absurd this hf2ne

/-- Membership in the first-occurrence set enumeration. -/
theorem set_list_first_mem (xs : List String) : ∀ (seen : List String) (a : String),
    a ∈ set_list_first seen xs ↔ (a ∈ xs ∧ a ∉ seen) := by
  induction xs with
  | nil => intro seen a; simp [set_list_first]
  | cons b l ih =>
    intro seen a
    simp only [set_list_first]
    by_cases hb : b ∈ seen
    · rw [if_pos hb, ih]
      constructor
      · rintro ⟨h1, h2⟩
        exact ⟨List.mem_cons_of_mem _ h1, h2⟩
      · rintro ⟨h1, h2⟩
        refine ⟨?_, h2⟩
        rcases List.mem_cons.mp h1 with rfl | h1
        · exact absurd hb h2
        · exact h1
    · rw [if_neg hb, List.mem_cons, ih]
      constructor
      · rintro (rfl | ⟨h1, h2⟩)
        · exact ⟨List.mem_cons_self _ _, hb⟩
        · exact ⟨List.mem_cons_of_mem _ h1,
            fun hs => h2 (List.mem_cons_of_mem _ hs)⟩
      · rintro ⟨h1, h2⟩
        rcases List.mem_cons.mp h1 with rfl | h1
        · exact Or.inl rfl
        · by_cases hab : a = b
          · exact Or.inl hab
          · exact Or.inr ⟨h1, by simp [List.mem_cons, hab, h2]⟩

/-- The first-occurrence set enumeration never repeats an element. -/
theorem set_list_first_nodup (xs : List String) : ∀ seen : List String,
    (set_list_first seen xs).Nodup := by
  induction xs with
  | nil => intro seen; simp [set_list_first]
  | cons b l ih =>
    intro seen
    simp only [set_list_first]
    by_cases hb : b ∈ seen
    · rw [if_pos hb]; exact ih seen
    · rw [if_neg hb]
      refine List.nodup_cons.mpr ⟨?_, ih (b :: seen)⟩
      intro hmem
      exact ((set_list_first_mem l (b :: seen) b).mp hmem).2 (List.mem_cons_self _ _)

/-- The first-occurrence enumeration is a valid set order. -/
theorem py_set_list_valid : valid_set_order py_set_list := by
  intro xs
  refine ⟨set_list_first_nodup xs [], fun a => ?_⟩
  show a ∈ set_list_first [] xs ↔ a ∈ xs
  rw [set_list_first_mem]
  simp

/-- The reversed enumeration is also a valid set order. -/
theorem set_list_rev_valid : valid_set_order set_list_rev := by
  intro xs
  constructor
  · exact List.nodup_reverse.mpr (set_list_first_nodup xs [])
  · intro a
    show a ∈ (set_list_first [] xs).reverse ↔ a ∈ xs
    rw [List.mem_reverse, set_list_first_mem]
    simp

/-- Witness for claim C10 at a concrete payload: primary 'A, B' and
featured 'C' merge into a duplicate-free artists list, and replacing the
artistMap leaves the result unchanged. -/
theorem claim_C10_witness :
    JioSaavn.extract_song U0 py_set_list d10 none = .ok info10 ∧
    (∀ l, info10.artists = some l → l.Nodup) ∧
    JioSaavn.extract_song U0 py_set_list (with_artistmap d10 [some "Z"]) none =
      JioSaavn.extract_song U0 py_set_list d10 none :=
  ⟨rfl, (claim_C10 U0 py_set_list d10 none info10 py_set_list_valid rfl).1,
    (claim_C10 U0 py_set_list d10 none info10 py_set_list_valid rfl).2.2.1
      (Or.inl rfl) [some "Z"]⟩

/-- A record agrees with itself modulo the artists order. -/
theorem info_agree_refl (i : JioSaavn.SongInfo) : info_agree_mod_artists i i := by
  refine ⟨rfl, ?_⟩
  cases h : i.artists with
  | none => trivial
  | some l => exact fun a => Iff.rfl

/-- The claim C3 statement, amended: _extract_song is deterministic once
the interpreter's set iteration order is fixed, and across two different
(valid) set iteration orders the two outcomes agree on every field except
the order of the artists list, whose members coincide.  The set iteration
order, fixed per CPython process by the string hash seed, is the only
state outside the inputs the function reads. -/
theorem claim_C3_amended (U : JioSaavn.Utils) (f g : List String → List String)
    (d d2 : JioSaavn.SongData) (u u2 : Option String)
    (hf : valid_set_order f) (hg : valid_set_order g)
    (hd : d = d2) (hu : u = u2) :
    JioSaavn.extract_song U f d u = JioSaavn.extract_song U f d2 u2 ∧
    result_agree_mod_artists (JioSaavn.extract_song U f d u)
      (JioSaavn.extract_song U g d u) := by
  subst hd
  subst hu
  refine ⟨rfl, ?_⟩
  unfold JioSaavn.extract_song
  cases hmid : JioSaavn.add_featured d (JioSaavn.add_display_id U u (JioSaavn.traverse_info U d)) with
  | error e => exact rfl
  | ok j =>
    simp only [Except.map]
    show info_agree_mod_artists (JioSaavn.dedup_artists f (JioSaavn.artistmap_fallback d j))
      (JioSaavn.dedup_artists g (JioSaavn.artistmap_fallback d j))
    generalize JioSaavn.artistmap_fallback d j = k
    cases hk : k.artists with
    | none =>
      rw [dedup_artists_none f k hk, dedup_artists_none g k hk]
      exact info_agree_refl k
    | some m =>
      cases m with
      | nil =>
        rw [dedup_artists_nil f k hk, dedup_artists_nil g k hk]
        exact info_agree_refl k
      | cons a m =>
        rw [dedup_artists_cons f k a m hk, dedup_artists_cons g k a m hk]
        exact ⟨rfl, fun x => ((hf (a :: m)).2 x).trans ((hg (a :: m)).2 x).symm⟩

/-- Counterexample to claim C3 as stated: the two concrete set
enumerations py_set_list and set_list_rev are both possible CPython set
iteration orders (see py_set_list_valid and set_list_rev_valid), yet on
the same payload d0 with primary artists 'A, B' they give different
metadata records: the artists list comes out as ['A', 'B'] under one
order and ['B', 'A'] under the other, so the output depends on the
interpreter's hash-seed-dependent set order, which is state outside the
inputs. -/
theorem claim_C3_counterexample :
    py_set_list ["A", "B"] = ["A", "B"] ∧
    set_list_rev ["A", "B"] = ["B", "A"] ∧
    artists_of (JioSaavn.extract_song U0 py_set_list d0 none) = some ["A", "B"] ∧
    artists_of (JioSaavn.extract_song U0 set_list_rev d0 none) = some ["B", "A"] ∧
    JioSaavn.extract_song U0 py_set_list d0 none ≠
      JioSaavn.extract_song U0 set_list_rev d0 none := by
  refine ⟨rfl, rfl, rfl, rfl, fun h => ?_⟩
  have h2 := congrArg artists_of h
  rw [show artists_of (JioSaavn.extract_song U0 py_set_list d0 none) = some ["A", "B"] from rfl,
    show artists_of (JioSaavn.extract_song U0 set_list_rev d0 none) = some ["B", "A"] from rfl]
    at h2
  exact absurd h2 (by decide)

/-- Witness for the amended claim C3 at the concrete payload d0 and the
two concrete valid set orders. -/
theorem claim_C3_amended_witness :
    JioSaavn.extract_song U0 py_set_list d0 none = JioSaavn.extract_song U0 py_set_list d0 none ∧
    result_agree_mod_artists (JioSaavn.extract_song U0 py_set_list d0 none)
      (JioSaavn.extract_song U0 set_list_rev d0 none) :=
  ⟨(claim_C3_amended U0 py_set_list set_list_rev d0 d0 none none
      py_set_list_valid set_list_rev_valid rfl rfl).1,
    (claim_C3_amended U0 py_set_list set_list_rev d0 d0 none none
      py_set_list_valid set_list_rev_valid rfl rfl).2⟩

/-- eat consumes exactly its literal prefix. -/
theorem eat_append (p rest : List Char) : JioSaavnShow.eat p (p ++ rest) = some rest := by
  induction p with
  | nil => rfl
  | cons c ps ih => simp [JioSaavnShow.eat, ih]

/-- takeWhile on a list of satisfying characters followed by a stopping
character cuts exactly at that character. -/
theorem takeWhile_append_stop {p : Char → Bool} (xs : List Char) (y : Char) (ys : List Char)
    (h : ∀ c ∈ xs, p c = true) (hy : p y = false) :
    (xs ++ y :: ys).takeWhile p = xs ∧ (xs ++ y :: ys).dropWhile p = y :: ys := by
  induction xs with
  | nil => simp [List.takeWhile_cons, List.dropWhile_cons, hy]
  | cons c cs ih =>
    have hc := h c (List.mem_cons_self _ _)
    obtain ⟨h1, h2⟩ := ih (fun x hx => h x (List.mem_cons_of_mem _ hx))
    simp [List.takeWhile_cons, List.dropWhile_cons, hc, h1, h2]

/-- takeWhile keeps a list all of whose characters satisfy the
predicate. -/
theorem takeWhile_all_true {p : Char → Bool} (xs : List Char)
    (h : ∀ c ∈ xs, p c = true) : xs.takeWhile p = xs := by
  induction xs with
  | nil => rfl
  | cons c cs ih =>
    have hc := h c (List.mem_cons_self _ _)
    simp [List.takeWhile_cons, hc, ih (fun x hx => h x (List.mem_cons_of_mem _ hx))]

/-- Claim C6: every URL matched by the show-playlist pattern has a
non-empty all-digit season group and a non-empty token group, and
_real_extract returns the playlist id token-season; conversely every URL
of the shape prefix/shows/name/season/token with the segment character
constraints matches with exactly those groups. -/
theorem claim_C6 :
    (∀ (url : String) (season vid : List Char),
      JioSaavnShow.match_show_url url.toList = some (season, vid) →
      season ≠ [] ∧ (∀ c ∈ season, c.isDigit = true) ∧ vid ≠ [] ∧
      JioSaavnShow.show_playlist_id url = some (String.mk vid ++ "-" ++ String.mk season)) ∧
    (∀ name season vid : List Char,
      name ≠ [] → (∀ c ∈ name, JioSaavnShow.name_stop c = false) →
      season ≠ [] → (∀ c ∈ season, c.isDigit = true) →
      vid ≠ [] → (∀ c ∈ vid, JioSaavnShow.id_stop c = false) →
      JioSaavnShow.match_show_url
        ("https://www.jiosaavn.com/shows/".toList ++ (name ++ ('/' :: (season ++ ('/' :: vid))))) =
        some (season, vid)) := by
  constructor
  · intro url season vid h
    have hid : JioSaavnShow.show_playlist_id url =
        some (String.mk vid ++ "-" ++ String.mk season) := by
      unfold JioSaavnShow.show_playlist_id
      rw [h]
      rfl
    suffices hprops : season ≠ [] ∧ (∀ c ∈ season, c.isDigit = true) ∧ vid ≠ [] by
      exact ⟨hprops.1, hprops.2.1, hprops.2.2, hid⟩
    unfold JioSaavnShow.match_show_url at h
    simp only [Option.bind_eq_some] at h
    obtain ⟨r1, -, h⟩ := h
    obtain ⟨r2, -, h⟩ := h
    split at h
    · exact absurd h (by simp)
    · split at h
      · split at h
        · exact absurd h (by simp)
        · split at h
          · split at h
            · exact absurd h (by simp)
            · rename_i hname a1 rest1 heq1 hsnon a2 rest2 heq2 hvnon
              have hp := (Option.some.injEq _ _).mp h
              have hseq : rest1.takeWhile Char.isDigit = season := congrArg Prod.fst hp
              have hveq : rest2.takeWhile (fun c => !JioSaavnShow.id_stop c) = vid :=
                congrArg Prod.snd hp
              refine ⟨?_, ?_, ?_⟩
              · intro hnil
                rw [hseq, hnil] at hsnon
                exact hsnon rfl
              · intro c hc
                rw [← hseq] at hc
                exact List.mem_takeWhile_imp hc
              · intro hnil
                rw [hveq, hnil] at hvnon
                exact hvnon rfl
          · exact absurd h (by simp)
      · exact absurd h (by simp)
  · intro name season vid hn hnc hs hsc hv hvc
    have hsplit : ("https://www.jiosaavn.com/shows/".toList : List Char) =
        "https://".toList ++ ("www.".toList ++ ("jio".toList ++ "saavn.com/shows/".toList)) := by
      decide
    rw [hsplit]
    simp only [List.append_assoc]
    unfold JioSaavnShow.match_show_url JioSaavnShow.eat_scheme JioSaavnShow.eat_opt
    simp only [eat_append, Option.getD_some, Option.some_bind]
    have hnt := @takeWhile_append_stop (fun c => !JioSaavnShow.name_stop c) name '/'
      (season ++ ('/' :: vid)) (fun c hc => by simp [hnc c hc]) (by decide)
    rw [hnt.1, hnt.2]
    have hne : name.isEmpty = false := by
      cases name with
      | nil => exact absurd rfl hn
      | cons a l => rfl
    simp only [hne, Bool.false_eq_true, if_false]
    have hst := @takeWhile_append_stop Char.isDigit season '/' vid hsc (by decide)
    rw [hst.1, hst.2]
    have hse : season.isEmpty = false := by
      cases season with
      | nil => exact absurd rfl hs
      | cons a l => rfl
    simp only [hse, Bool.false_eq_true, if_false]
    rw [@takeWhile_all_true (fun c => !JioSaavnShow.id_stop c) vid (fun c hc => by simp [hvc c hc])]
    have hve : vid.isEmpty = false := by
      cases vid with
      | nil => exact absurd rfl hv
      | cons a l => rfl
    simp only [hve, Bool.false_eq_true, if_false]

/-- Witness for claim C6 at the show URL from the module's own tests:
season 1 and token PjReFP-Sguk_ give playlist id PjReFP-Sguk_-1. -/
theorem claim_C6_witness :
    JioSaavnShow.match_show_url
      "https://www.jiosaavn.com/shows/talking-music/1/PjReFP-Sguk_".toList =
      some ("1".toList, "PjReFP-Sguk_".toList) ∧
    JioSaavnShow.show_playlist_id
      "https://www.jiosaavn.com/shows/talking-music/1/PjReFP-Sguk_" =
      some "PjReFP-Sguk_-1" := by
  constructor
  · decide
  · have h := (claim_C6.1 "https://www.jiosaavn.com/shows/talking-music/1/PjReFP-Sguk_"
      "1".toList "PjReFP-Sguk_".toList (by decide)).2.2.2
    exact h.trans (by decide)
